import Mathlib

/-!
Verification of the module-dependency-graph builder (`src/build.rs`) of the
rewatch build tool, as a shallow embedding in Lean 4.

Conventions of the embedding:
* Rust `String` paths are Lean `String`s; a file's contents are modelled as
  the list of its lines (what `read_lines` yields), and the filesystem as a
  partial map `String → Option (List String)` (`none` = `File::open` fails).
* Rust's `str` primitives (`trim`, `starts_with`, `is_empty`, `replace`) are
  defined here over `String.data` so that the kernel can evaluate them.
* `AHashSet String` is modelled as `Finset String`; `AHashMap String v`
  (the registry) as an association list in which each key occurs once
  (insertion replaces any previous binding, as `AHashMap::insert` does).
* Rust panics (`unwrap`, `expect`, `unreachable!`) are modelled with
  `Option`/`Except`: `none`/`error` is the panic.
* External subprocesses only matter through their captured stderr, which is
  passed in as data.
-/

/-! ### Rust string primitives -/

/-- Rust `str::starts_with` for a string pattern. -/
def rustStartsWith (s pre : String) : Bool :=
  pre.data.isPrefixOf s.data

/-- Rust `str::trim`: remove leading and trailing whitespace. -/
def rustTrim (s : String) : String :=
  ⟨((s.data.dropWhile Char.isWhitespace).reverse.dropWhile Char.isWhitespace).reverse⟩

/-- Rust `str::is_empty`. -/
def rustIsEmpty (s : String) : Bool :=
  s.data.isEmpty

/-- Rust `str::replace` for the single-character patterns used in
`build.rs` (`"@"` and `"/"`): every occurrence of `pat` is replaced by
`repl`. -/
def rustReplace (s : String) (pat : Char) (repl : String) : String :=
  ⟨s.data.foldr (fun c acc => if c = pat then repl.data ++ acc else c :: acc) []⟩

/-! ### Data model (`build.rs` structs) -/

/-- Source-file kind, from `enum SourceType` in `build.rs`. -/
inductive SourceType where
  | Interface
  | Implementation
  | MlMap
deriving DecidableEq, Repr

/-- The `reason` field of a bsconfig (only `react_jsx` is read by `build.rs`). -/
structure Reason where
  react_jsx : Nat
deriving DecidableEq, Repr

/-- The fields of `bsconfig` that `build.rs` reads: the package name, the
declared package dependencies and the jsx config. -/
structure Bsconfig where
  name : String
  bs_dependencies : Option (List String)
  reason : Option Reason
deriving DecidableEq, Repr

/-- A package, with the fields of `package_tree::Package` that `build.rs`
reads.  `source_files` keeps the key set of the Rust map as a list; the field
`namespace` of the Rust struct is called `namespace_flag` here because
`namespace` is a Lean keyword. -/
structure Package where
  name : String
  namespace_flag : Bool
  bsconfig : Bsconfig
  source_files : Option (List String)
deriving DecidableEq, Repr

/-- `struct SourceFile` from `build.rs`.  The Rust field `namespace` is called
`namespace'` here (`namespace` is a Lean keyword); `ast_deps` is a
`Finset String` standing for the `AHashSet`. -/
structure SourceFile where
  dirty : Bool
  source_type : SourceType
  namespace' : Option String
  file_path : String
  ast_path : Option String
  ast_deps : Finset String
  package : Package
deriving DecidableEq

/-- `contains_ascii_characters` from `build.rs`: true iff some character of
the string is ASCII alphanumeric. -/
def contains_ascii_characters (str : String) : Bool :=
  str.data.any (fun chr => chr.isAlphanum && chr.toNat < 128)

/-! ### Dependency-preamble parsing (`get_dep_modules`) -/

/-- The loop body of `get_dep_modules`: scan the lines that follow the header
line, trim each, stop at the first line starting with `/`, and collect every
other non-empty line. -/
def scanDeps : List String → List String
  | [] => []
  | line :: rest =>
    let l := rustTrim line
    if rustStartsWith l "/" then []
    else if rustIsEmpty l then scanDeps rest
    else l :: scanDeps rest

/-- `get_dep_modules` from `build.rs`: read the artifact file's lines (an
unreadable file contributes no dependencies), skip the first line, and scan
the dependency preamble. -/
def get_dep_modules (fs : String → Option (List String)) (ast_file : String) :
    List String :=
  match fs ast_file with
  | some lines => scanDeps (lines.drop 1)
  | none => []

/-- The dependency normalization performed in `parse_and_get_dependencies`
(lines 299–300): collect the parsed names into a set, insert `"Pervasives"`,
then remove the unit's own module name. -/
def normalizeDeps (module_name : String) (deps : List String) : Finset String :=
  (insert "Pervasives" deps.toFinset).erase module_name

example : scanDeps ["Dep1", "Dep2", "/abs/path", "junk"] = ["Dep1", "Dep2"] := by decide

example : normalizeDeps "M" ["Dep1", "Dep2"] = {"Dep1", "Dep2", "Pervasives"} := by
  decide

example : normalizeDeps "Pervasives" [] = ∅ := by decide

/-! ### Namespace derivation (`get_namespace`, external `convert_case`) -/

/-- Word delimiters of the `convert_case` crate's boundary detection that can
occur in an npm package name after `build.rs` has replaced `/` by `_`. -/
def isCaseDelim (c : Char) : Bool :=
  c = '_' || c = '-' || c = ' '

/-- Capitalize one word: first character uppercased, the rest lowercased. -/
def capitalizeWord : List Char → List Char
  | [] => []
  | c :: cs => c.toUpper :: cs.map Char.toLower

/-- Modelled from the spec: the external `convert_case` crate's
`to_case(Case::Pascal)` (not part of this repository) — split the string into
words at delimiters, capitalize each word, keep no separators. -/
def to_case_pascal (s : String) : String :=
  ⟨((s.data.splitOnP isCaseDelim).map capitalizeWord).flatten⟩

/-- `get_namespace` from `build.rs`: if the package has namespacing enabled,
remove `@`, turn `/` into `_`, and convert to Pascal case. -/
def get_namespace (package : Package) : Option String :=
  if package.namespace_flag then
    some (to_case_pascal (rustReplace (rustReplace package.bsconfig.name '@' "") '/' "_"))
  else
    none

example :
    get_namespace
      { name := "@org/bar", namespace_flag := true,
        bsconfig := { name := "@org/bar", bs_dependencies := none, reason := none },
        source_files := some ["X.res", "Y.res"] } = some "OrgBar" := by decide

/-! ### Path helpers (external `helpers.rs` and `std::path`) -/

/-- Split a string at every occurrence of a character (separators dropped);
used to model component-wise path and file-name operations. -/
def splitChar (c : Char) (s : String) : List String :=
  (s.data.splitOn c).map String.mk

/-- The final dot-separated suffix of the final path component, for ordinary
file names; models `PathBuf::extension` (`none` when the file name has no
dot). -/
def extensionOf (path : String) : Option String :=
  let fname := (splitChar '/' path).getLastD ""
  let parts := splitChar '.' fname
  if parts.length ≤ 1 then none else some (parts.getLastD "")

/-- Modelled from the spec: `helpers::get_basename` (not under `src/`) — "the
source file's base name": the final path component without its extension. -/
def get_basename (path : String) : String :=
  let fname := (splitChar '/' path).getLastD ""
  let parts := splitChar '.' fname
  if parts.length ≤ 1 then fname
  else ⟨List.intercalate ['.'] ((parts.dropLast).map String.data)⟩

/-- Modelled from the spec: `helpers::get_build_path` (not under `src/`) —
the package's build output directory under the project root. -/
def get_build_path (root_path package_name : String) : String :=
  root_path ++ "/node_modules/" ++ package_name ++ "/_build"

/-! ### Front-end invocation (`generate_ast`) -/

/-- The artifact output path chosen by `generate_ast` (`build.rs` lines
64–73): the source basename plus `.iast` when the extension is `resi`,
`.ast` for any other extension; `none` models the `unwrap` panic on a file
without an extension. -/
def generate_ast_output (filename : String) : Option String :=
  (extensionOf filename).map fun ext =>
    get_basename filename ++ (if ext = "resi" then ".iast" else ".ast")

/-- `generate_ast` from `build.rs`: compute the artifact path, run the
front-end (whose captured stderr is passed in as `stderr`), print the stderr
when it contains ASCII-alphanumeric content, and return the artifact path
unconditionally — the exit status is never inspected.  The returned `Bool`
records whether diagnostics were printed. -/
def generate_ast (package : Package) (filename root_path version stderr : String) :
    Option (String × Bool) :=
  (generate_ast_output filename).map fun ast_path =>
    (ast_path, contains_ascii_characters stderr)

/-! ### Registry and discovery -/

/-- The build-unit registry: an association list standing for
`AHashMap<String, SourceFile>`; each key occurs at most once. -/
abbrev Registry := List (String × SourceFile)

/-- Drop every binding of a key from the registry (helper for `regInsert`). -/
def regRemove : Registry → String → Registry
  | [], _ => []
  | p :: rest, k => if p.1 = k then regRemove rest k else p :: regRemove rest k

/-- `AHashMap::insert`: any previous binding of the key is replaced. -/
def regInsert (reg : Registry) (k : String) (v : SourceFile) : Registry :=
  (k, v) :: regRemove reg k

/-- `AHashMap::get` / indexing: the binding of a key, if any. -/
def regLookup : Registry → String → Option SourceFile
  | [], _ => none
  | p :: rest, k => if p.1 = k then some p.2 else regLookup rest k

/-- `gen_mlmap` from `build.rs` (path part): the alias artifact is written to
`<build-dir>/<namespace>.mlmap` and that path is returned. -/
def gen_mlmap_path (package : Package) (ns root_path : String) : String :=
  get_build_path root_path package.name ++ "/" ++ ns ++ ".mlmap"

/-- `gen_mlmap` from `build.rs` (contents part): a sixteen-character filler
line followed by one module name per line. -/
def gen_mlmap_digest (modules : List String) : String :=
  ⟨List.replicate 16 'a'⟩ ++ "\n" ++ ⟨List.intercalate ['\n'] (modules.map String.data)⟩

/-- The extension dispatch of discovery (`build.rs` lines 246–261): the three
implementation extensions, the three interface extensions, and otherwise the
`unreachable!()` panic, modelled as `none`; the `unwrap` on a file without an
extension is also a panic. -/
def source_type_of (file : String) : Option SourceType :=
  match extensionOf file with
  | none => none
  | some "res" => some .Implementation
  | some "ml" => some .Implementation
  | some "re" => some .Implementation
  | some "resi" => some .Interface
  | some "mli" => some .Interface
  | some "rei" => some .Interface
  | some _ => none

/-- The `MlMap` `SourceFile` record inserted for a namespaced package
(`build.rs` lines 225–236): born dirty, no namespace of its own, with
`file_path` and `ast_path` both the written `.mlmap` path, and `ast_deps`
the package's alias set. -/
def aliasUnit (package : Package) (mlmap : String) (ast_deps : Finset String) :
    SourceFile :=
  { file_path := mlmap, dirty := true, source_type := .MlMap,
    namespace' := none, ast_path := some mlmap, ast_deps := ast_deps,
    package := package }

/-- The `SourceFile` record inserted for one source file during discovery
(`build.rs` lines 241–271): dirty, `source_type` already resolved from the
extension, the package namespace when namespacing is enabled, and no
artifact or dependencies yet. -/
def sourceUnit (package : Package) (file : String) (st : SourceType) :
    SourceFile :=
  { file_path := file, dirty := true, source_type := st,
    namespace' := if package.namespace_flag then get_namespace package else none,
    ast_path := none, ast_deps := ∅, package := package }

/-- The `source_files.iter().for_each` loop of discovery (`build.rs` lines
240–272): insert one unit per source file under its resolved module name;
`Except.error` models the `unreachable!()` panic on an unknown extension. -/
def discoverSourceFiles (resolve : String → String) (package : Package) :
    Registry → List String → Except String Registry
  | reg, [] => .ok reg
  | reg, file :: rest =>
    match source_type_of file with
    | none => .error ("unknown extension: " ++ file)
    | some st =>
      discoverSourceFiles resolve package
        (regInsert reg (resolve file) (sourceUnit package file st)) rest

/-- The alias set computed for a namespaced package (`build.rs` lines
208–216): the resolved module names of all of the package's source files
(empty when the package declares none). -/
def aliasDeps (resolve : String → String) (package : Package) : Finset String :=
  ((package.source_files.map (fun x => x.map resolve)).getD []).toFinset

/-- The discovery pass of `parse_and_get_dependencies` for one package
(`build.rs` lines 205–274), parameterized by the external Module-Name
Resolver `resolve` (`helpers::file_path_to_module_name`, not under `src/`;
per the spec a deterministic pure function from path to module name).  When
the package has a namespace, the alias artifact is generated and a
born-extracted `MlMap` unit is inserted first; then one unit per source file
is inserted. -/
def discoverPackage (resolve : String → String) (project_root : String)
    (reg : Registry) (package : Package) : Except String Registry :=
  let reg :=
    match get_namespace package with
    | none => reg
    | some ns =>
      let mlmap := gen_mlmap_path package ns project_root
      regInsert reg (resolve mlmap) (aliasUnit package mlmap (aliasDeps resolve package))
  match package.source_files with
  | none => .ok reg
  | some source_files => discoverSourceFiles resolve package reg source_files

/-- The `packages.iter().for_each` loop of discovery (`build.rs` lines
205–274), starting from a given registry; a panic in any package aborts the
whole pass. -/
def discoverAux (resolve : String → String) (project_root : String) :
    Registry → List Package → Except String Registry
  | reg, [] => .ok reg
  | reg, package :: rest =>
    match discoverPackage resolve project_root reg package with
    | .error e => .error e
    | .ok reg' => discoverAux resolve project_root reg' rest

/-- The discovery pass over all packages (`build.rs` lines 205–274), starting
from the fresh empty registry; the package collection is an ordered list
standing for one iteration order of the `AHashMap` of packages. -/
def discover (resolve : String → String) (project_root : String)
    (packages : List Package) : Except String Registry :=
  discoverAux resolve project_root [] packages

/-! ### Extraction (scatter) and merge (gather) -/

/-- One scatter-phase task of `parse_and_get_dependencies` (lines 279–304):
an `MlMap` unit hands back its stored `ast_path` (the `unwrap` is a panic if
it were `none`) and `ast_deps`; an `Interface`/`Implementation` unit runs the
front-end (`generate_ast`), then parses the artifact's dependency preamble
from the filesystem `fs`, inserts `"Pervasives"` and removes its own module
name.  `stderr` is the front-end's captured stderr for this unit. -/
def extractUnit (fs : String → Option (List String))
    (project_root version stderr : String)
    (module_name : String) (metadata : SourceFile) :
    Option (String × String × Finset String) :=
  match metadata.source_type with
  | .MlMap => (metadata.ast_path).map fun p => (module_name, p, metadata.ast_deps)
  | _ =>
    (generate_ast metadata.package metadata.file_path project_root version stderr).map
      fun x =>
        let build_path := get_build_path project_root metadata.package.bsconfig.name
        let ast_deps := normalizeDeps module_name
          (get_dep_modules fs (build_path ++ "/" ++ x.1))
        (module_name, x.1, ast_deps)

/-- The gather phase (lines 305–312): fold the collected triples back into
the registry, overwriting `ast_path` and `ast_deps` of each existing entry
(`entry(..).and_modify`). -/
def gather (reg : Registry) (triples : List (String × String × Finset String)) :
    Registry :=
  triples.foldl
    (fun reg t =>
      reg.map fun p =>
        if p.1 = t.1 then
          (p.1, { p.2 with ast_path := some t.2.1, ast_deps := t.2.2 })
        else p)
    reg

/-- The scatter phase of `parse_and_get_dependencies` (lines 276–305): one
extraction task per registry entry, collected into a list of
`(module_name, ast_path, ast_deps)` triples; a panicking task
(`Except.error`) aborts the run. -/
def extractAll (fs : String → Option (List String))
    (project_root version : String) (stderrOf : String → String) :
    Registry → Except String (List (String × String × Finset String))
  | [] => .ok []
  | p :: rest =>
    match extractUnit fs project_root version (stderrOf p.2.file_path) p.1 p.2 with
    | none => .error "extraction panic"
    | some t =>
      match extractAll fs project_root version stderrOf rest with
      | .error e => .error e
      | .ok ts => .ok (t :: ts)

/-- `parse_and_get_dependencies` from `build.rs`: discovery, then the
scatter/gather extraction.  `stderrOf` gives the front-end's captured stderr
for each source file; `fs` is the filesystem state the artifact reads see;
`Except.error` models the panics. -/
def parse_and_get_dependencies (resolve : String → String)
    (fs : String → Option (List String)) (stderrOf : String → String)
    (version project_root : String) (packages : List Package) :
    Except String Registry := do
  let files ← discover resolve project_root packages
  let triples ← extractAll fs project_root version stderrOf files
  pure (gather files triples)

/-! ### Module compile invocation (`compile_file`) -/

/-- Rust `Path::strip_prefix` for string paths: remove `base` and the
following separator from the front of `path`. -/
def stripPrefix (path base : String) : Option String :=
  if path = base then some ""
  else if rustStartsWith path (base ++ "/") then
    some ⟨path.data.drop (base.data.length + 1)⟩
  else none

/-- Rust `Path::parent` for string paths: drop the final component; `none`
for the empty path. -/
def parent (path : String) : Option String :=
  if path = "" then none
  else some ⟨List.intercalate ['/'] (((splitChar '/' path).dropLast).map String.data)⟩

/-- The argument vector built by `compile_file` (`build.rs` lines 341–412),
in source order: namespace flags, `-bs-read-cmi` for interfaces, the
current-directory include, one `-I` pair per declared package dependency,
the warnings-as-errors flag, the implementation-only package-name and
`-bs-package-output` flags, and the unit's artifact path last.  `none`
models the panics: the `stripPrefix`/`parent` `unwrap`s and the
`expect("No path found")` on a missing `ast_path`. -/
def compile_file_args (pkg_path_abs abs_node_modules_path : String)
    (source : SourceFile) (is_interface : Bool) : Option (List String) := do
  let deps := (source.package.bsconfig.bs_dependencies.getD []).map
    (fun x => ["-I", abs_node_modules_path ++ "/" ++ x ++ "/_build"])
  let namespace_args := match source.namespace' with
    | some ns => ["-bs-ns", ns]
    | none => ([] : List String)
  let read_cmi_args := if is_interface then ["-bs-read-cmi"] else []
  let implementation_args ←
    if is_interface then some ([] : List String)
    else do
      let stripped ← stripPrefix source.file_path pkg_path_abs
      let dir ← parent stripped
      some ["-bs-package-name", source.package.bsconfig.name,
            "-bs-package-output", "es6:" ++ ("./" ++ dir) ++ ":.mjs"]
  let ast ← source.ast_path
  some (namespace_args ++ read_cmi_args ++ ["-I", "."] ++ deps.flatten ++
        ["-warn-error", "A"] ++ implementation_args ++ [ast])

/-! ### Lemmas about the preamble scan and normalization -/

theorem scanDeps_eq (lines : List String) :
    scanDeps lines =
      ((lines.map rustTrim).takeWhile (fun l => !(rustStartsWith l "/"))).filter
        (fun l => !(rustIsEmpty l)) := by
  induction lines with
  | nil => rfl
  | cons line rest ih =>
    simp only [scanDeps, List.map_cons, List.takeWhile_cons]
    by_cases h1 : rustStartsWith (rustTrim line) "/"
    · simp [h1]
    · by_cases h2 : rustIsEmpty (rustTrim line)
      · simp [h1, h2, ih]
      · simp [h1, h2, ih]

theorem normalizeDeps_self_not_mem (m : String) (deps : List String) :
    m ∉ normalizeDeps m deps :=
  Finset.not_mem_erase m _

theorem normalizeDeps_perv_mem (m : String) (deps : List String) :
    ("Pervasives" ∈ normalizeDeps m deps) ↔ m ≠ "Pervasives" := by
  constructor
  · intro h hm
    subst hm
    exact normalizeDeps_self_not_mem _ deps h
  · intro h
    exact Finset.mem_erase.mpr ⟨fun he => h he.symm, Finset.mem_insert_self _ _⟩

theorem normalizeDeps_nil (m : String) (hm : m ≠ "Pervasives") :
    normalizeDeps m [] = {"Pervasives"} := by
  simp only [normalizeDeps, List.toFinset_nil, insert_emptyc_eq]
  exact Finset.erase_eq_of_not_mem (by simp [hm])

/-- C1: for every artifact file, dependency-preamble parsing skips the first
line unconditionally, then trims each subsequent line, stops at the first
line starting with `/`, and records every other non-empty line; and an
artifact whose first non-header line already starts with `/` yields, after
normalization for the unit, the dependency set `{"Pervasives"}`. -/
theorem C1_dep_preamble_parsing (fs : String → Option (List String))
    (file first : String) (rest : List String) (module_name : String)
    (hfs : fs file = some (first :: rest)) (hm : module_name ≠ "Pervasives") :
    get_dep_modules fs file =
      ((rest.map rustTrim).takeWhile (fun l => !(rustStartsWith l "/"))).filter
        (fun l => !(rustIsEmpty l))
    ∧ (∀ l rest', rest = l :: rest' → rustStartsWith (rustTrim l) "/" →
        normalizeDeps module_name (get_dep_modules fs file) = {"Pervasives"}) := by
  have hget : get_dep_modules fs file = scanDeps rest := by
    simp [get_dep_modules, hfs]
  refine ⟨by rw [hget, scanDeps_eq], ?_⟩
  rintro l rest' rfl h
  rw [hget]
  have hscan : scanDeps (l :: rest') = [] := by
    simp [scanDeps, h]
  rw [hscan]
  exact normalizeDeps_nil module_name hm

/-- Witness for C1 at a concrete artifact: header line, then a line that
already starts with `/`. -/
theorem C1_witness :
    normalizeDeps "M" (get_dep_modules (fun _ => some ["hdr", "/abs/path"]) "f") =
      {"Pervasives"} :=
  (C1_dep_preamble_parsing (fun _ => some ["hdr", "/abs/path"]) "f" "hdr"
    ["/abs/path"] "M" rfl (by decide)).2 "/abs/path" [] rfl (by decide)

/-! ### Lemmas about one extraction task -/

theorem extractUnit_eq (fs : String → Option (List String))
    (root version stderr module_name : String) (metadata : SourceFile)
    (hty : metadata.source_type ≠ SourceType.MlMap) (out : String)
    (hout : generate_ast_output metadata.file_path = some out) :
    extractUnit fs root version stderr module_name metadata =
      some (module_name, out,
        normalizeDeps module_name
          (get_dep_modules fs
            (get_build_path root metadata.package.bsconfig.name ++ "/" ++ out))) := by
  cases hst : metadata.source_type with
  | MlMap => exact absurd hst hty
  | Interface => simp [extractUnit, hst, generate_ast, hout]
  | Implementation => simp [extractUnit, hst, generate_ast, hout]

theorem extractUnit_none (fs : String → Option (List String))
    (root version stderr module_name : String) (metadata : SourceFile)
    (hty : metadata.source_type ≠ SourceType.MlMap)
    (hout : generate_ast_output metadata.file_path = none) :
    extractUnit fs root version stderr module_name metadata = none := by
  cases hst : metadata.source_type with
  | MlMap => exact absurd hst hty
  | Interface => simp [extractUnit, hst, generate_ast, hout]
  | Implementation => simp [extractUnit, hst, generate_ast, hout]

/-- A package holding the source files used in the concrete C2 scenarios. -/
def pervPackage : Package :=
  { name := "foo", namespace_flag := false,
    bsconfig := { name := "foo", bs_dependencies := none, reason := none },
    source_files := some ["Pervasives.res"] }

/-- A build unit whose module is itself named `Pervasives`. -/
def pervUnit : SourceFile :=
  sourceUnit pervPackage "Pervasives.res" SourceType.Implementation

/-- C2 fails on the code for a module itself named `"Pervasives"`: extraction
of such a unit (here over an unreadable artifact) yields the empty dependency
set, which does not contain the prelude module. -/
theorem C2_counterexample :
    extractUnit (fun _ => none) "/root" "v" "" "Pervasives" pervUnit =
      some ("Pervasives", "Pervasives.ast", ∅) ∧
    "Pervasives" ∉ (∅ : Finset String) := by
  constructor
  · decide
  · simp

/-- C2 (amended): after extraction of an Interface/Implementation unit the
final dependency set never contains the unit's own module name, and contains
`"Pervasives"` exactly when the unit is not itself named `"Pervasives"` (the
self-dependency removal runs after the prelude insertion, so a unit named
`"Pervasives"` strips it again). -/
theorem C2_self_removed_prelude_inserted (fs : String → Option (List String))
    (root version stderr module_name : String) (metadata : SourceFile)
    (hty : metadata.source_type ≠ SourceType.MlMap)
    (t : String × String × Finset String)
    (hext : extractUnit fs root version stderr module_name metadata = some t) :
    module_name ∉ t.2.2 ∧ (("Pervasives" ∈ t.2.2) ↔ module_name ≠ "Pervasives") := by
  cases hgen : generate_ast_output metadata.file_path with
  | none =>
    rw [extractUnit_none fs root version stderr module_name metadata hty hgen] at hext
    exact absurd hext (by simp)
  | some out =>
    rw [extractUnit_eq fs root version stderr module_name metadata hty out hgen] at hext
    cases Option.some.inj hext
    exact ⟨normalizeDeps_self_not_mem _ _, normalizeDeps_perv_mem _ _⟩

/-- Witness for the amended C2 at a concrete unit named `"M"`. -/
theorem C2_witness :
    "M" ∉ ({"Pervasives"} : Finset String) ∧
      (("Pervasives" ∈ ({"Pervasives"} : Finset String)) ↔ ("M" : String) ≠ "Pervasives") :=
  C2_self_removed_prelude_inserted (fun _ => none) "/root" "v" "" "M"
    (sourceUnit pervPackage "M.res" SourceType.Implementation) (by decide)
    ("M", "M.ast", {"Pervasives"}) (by decide)

/-- C6 fails on the code for the interface extensions `.mli` and `.rei`:
discovery classifies `Foo.mli` as an Interface unit, yet the front-end output
path for it uses `.ast`, not `.iast` (only `resi` is matched in
`generate_ast`). -/
theorem C6_counterexample :
    source_type_of "Foo.mli" = some SourceType.Interface ∧
    generate_ast_output "Foo.mli" = some "Foo.ast" ∧
    generate_ast_output "Foo.mli" ≠ some "Foo.iast" := by
  refine ⟨by decide, by decide, by decide⟩

/-- C6 (amended): the front-end output artifact path is the source base name
with `.iast` exactly for the `.resi` extension; every other extension —
including the interface extensions `.mli` and `.rei` recognized by
discovery — gets `.ast`, and a file without an extension panics. -/
theorem C6_artifact_extension (filename : String) :
    (extensionOf filename = some "resi" →
      generate_ast_output filename = some (get_basename filename ++ ".iast"))
    ∧ (∀ ext, extensionOf filename = some ext → ext ≠ "resi" →
        generate_ast_output filename = some (get_basename filename ++ ".ast"))
    ∧ (extensionOf filename = none → generate_ast_output filename = none) := by
  refine ⟨fun h => ?_, fun ext h hne => ?_, fun h => ?_⟩
  · simp [generate_ast_output, h]
  · simp [generate_ast_output, h, hne]
  · simp [generate_ast_output, h]

/-- Witness for the amended C6 at a `.resi` file and at an `.mli` file. -/
theorem C6_witness :
    generate_ast_output "A.resi" = some (get_basename "A.resi" ++ ".iast") ∧
    generate_ast_output "B.mli" = some (get_basename "B.mli" ++ ".ast") :=
  ⟨(C6_artifact_extension "A.resi").1 (by decide),
   (C6_artifact_extension "B.mli").2.1 "mli" (by decide) (by decide)⟩

/-! ### Lemmas about discovery -/

theorem source_type_of_none_iff (file ext : String)
    (hext : extensionOf file = some ext) :
    source_type_of file = none ↔
      ext ∉ (["res", "ml", "re", "resi", "mli", "rei"] : List String) := by
  unfold source_type_of
  rw [hext]
  constructor
  · intro h hmem
    simp only [List.mem_cons, List.not_mem_nil, or_false] at hmem
    rcases hmem with rfl | rfl | rfl | rfl | rfl | rfl <;> exact Option.noConfusion h
  · intro hnm
    split
    any_goals rfl
    all_goals
      rename_i heq
      obtain rfl := Option.some.inj heq
      exact absurd (by simp) hnm

theorem discoverSourceFiles_ok_st (resolve : String → String) (package : Package) :
    ∀ (files : List String) (reg reg' : Registry),
      discoverSourceFiles resolve package reg files = .ok reg' →
      ∀ f ∈ files, ∃ st, source_type_of f = some st
  | [], _, _, _, f, hf => absurd hf (List.not_mem_nil f)
  | file :: rest, reg, reg', h, f, hf => by
    cases hst : source_type_of file with
    | none =>
      simp only [discoverSourceFiles, hst] at h
      exact Except.noConfusion h
    | some st =>
      simp only [discoverSourceFiles, hst] at h
      rcases List.mem_cons.mp hf with rfl | hf'
      · exact ⟨st, hst⟩
      · exact discoverSourceFiles_ok_st resolve package rest _ reg' h f hf'

theorem discoverPackage_ok_st (resolve : String → String) (root : String)
    (reg reg' : Registry) (package : Package)
    (h : discoverPackage resolve root reg package = .ok reg') :
    ∀ f ∈ package.source_files.getD [], ∃ st, source_type_of f = some st := by
  intro f hf
  unfold discoverPackage at h
  cases hsf : package.source_files with
  | none =>
    rw [hsf] at hf
    exact absurd hf (List.not_mem_nil f)
  | some files =>
    simp only [hsf] at h hf
    exact discoverSourceFiles_ok_st resolve package files _ reg' h f hf

theorem discoverAux_ok_mem (resolve : String → String) (root : String) :
    ∀ (packages : List Package) (reg reg' : Registry),
      discoverAux resolve root reg packages = .ok reg' →
      ∀ p ∈ packages, ∃ r r', discoverPackage resolve root r p = .ok r'
  | [], _, _, _, p, hp => absurd hp (List.not_mem_nil p)
  | q :: rest, reg, reg', h, p, hp => by
    cases hq : discoverPackage resolve root reg q with
    | error e =>
      simp only [discoverAux, hq] at h
      exact Except.noConfusion h
    | ok reg₁ =>
      simp only [discoverAux, hq] at h
      rcases List.mem_cons.mp hp with rfl | hp'
      · exact ⟨reg, reg₁, hq⟩
      · exact discoverAux_ok_mem resolve root rest reg₁ reg' h p hp'

theorem parse_ok_discover_ok (resolve : String → String)
    (fs : String → Option (List String)) (stderrOf : String → String)
    (version root : String) (packages : List Package) (reg : Registry)
    (h : parse_and_get_dependencies resolve fs stderrOf version root packages = .ok reg) :
    ∃ files, discover resolve root packages = .ok files := by
  unfold parse_and_get_dependencies at h
  cases hd : discover resolve root packages with
  | error e =>
    rw [hd] at h
    exact absurd h (by simp [Bind.bind, Except.bind])
  | ok files => exact ⟨files, rfl⟩

/-- C9: a source file whose extension is not one of `.res`, `.ml`, `.re`,
`.resi`, `.mli`, `.rei` (or that has no extension at all) makes discovery
fail fast — the whole pipeline can never return a registry — and for known
extensions the panic branch is unreachable. -/
theorem C9_unknown_extension_fatal :
    (∀ file ext, extensionOf file = some ext →
      (source_type_of file = none ↔
        ext ∉ (["res", "ml", "re", "resi", "mli", "rei"] : List String)))
    ∧ (∀ file, extensionOf file = none → source_type_of file = none)
    ∧ (∀ (resolve : String → String) (fs : String → Option (List String))
        (stderrOf : String → String) (version root : String)
        (packages : List Package) (p : Package) (file : String) (reg : Registry),
        p ∈ packages → file ∈ p.source_files.getD [] →
        source_type_of file = none →
        parse_and_get_dependencies resolve fs stderrOf version root packages ≠
          .ok reg) := by
  refine ⟨source_type_of_none_iff, fun file h => by simp [source_type_of, h], ?_⟩
  intro resolve fs stderrOf version root packages p file reg hp hf hnone hok
  obtain ⟨files, hfiles⟩ :=
    parse_ok_discover_ok resolve fs stderrOf version root packages reg hok
  obtain ⟨r, r', hdp⟩ := discoverAux_ok_mem resolve root packages [] files hfiles p hp
  obtain ⟨st, hst⟩ := discoverPackage_ok_st resolve root r r' p hdp file hf
  rw [hnone] at hst
  exact Option.noConfusion hst

/-- A package with a source file of unknown extension, for the C9 witness. -/
def badPkg : Package :=
  { name := "foo", namespace_flag := false,
    bsconfig := { name := "foo", bs_dependencies := none, reason := none },
    source_files := some ["A.xyz"] }

/-- Witness for C9: a concrete unknown-extension project can never produce a
registry. -/
theorem C9_witness :
    parse_and_get_dependencies get_basename (fun _ => none) (fun _ => "") "v"
      "/root" [badPkg] ≠ .ok [] :=
  C9_unknown_extension_fatal.2.2 get_basename (fun _ => none) (fun _ => "") "v"
    "/root" [badPkg] badPkg "A.xyz" [] (by simp) (by decide) (by decide)

/-! ### Lemmas about the registry operations -/

theorem regLookup_regRemove_ne (reg : Registry) (k k' : String) (h : k ≠ k') :
    regLookup (regRemove reg k') k = regLookup reg k := by
  induction reg with
  | nil => rfl
  | cons p rest ih =>
    by_cases hp : p.1 = k'
    · rw [regRemove, if_pos hp, ih, regLookup,
        if_neg (by rw [hp]; exact fun he => h he.symm)]
    · rw [regRemove, if_neg hp]
      by_cases hk : p.1 = k
      · rw [regLookup, if_pos hk, regLookup, if_pos hk]
      · rw [regLookup, if_neg hk, regLookup, if_neg hk, ih]

theorem regLookup_regInsert_self (reg : Registry) (k : String) (v : SourceFile) :
    regLookup (regInsert reg k v) k = some v := by
  rw [regInsert, regLookup, if_pos rfl]

theorem regLookup_regInsert_ne (reg : Registry) (k k' : String) (v : SourceFile)
    (h : k ≠ k') : regLookup (regInsert reg k' v) k = regLookup reg k := by
  rw [regInsert, regLookup, if_neg (by exact fun he => h he.symm)]
  exact regLookup_regRemove_ne reg k k' h

theorem mem_regRemove {reg : Registry} {k : String} {q : String × SourceFile}
    (h : q ∈ regRemove reg k) : q ∈ reg ∧ q.1 ≠ k := by
  induction reg with
  | nil => exact absurd h (List.not_mem_nil q)
  | cons p rest ih =>
    by_cases hp : p.1 = k
    · rw [regRemove, if_pos hp] at h
      exact ⟨List.mem_cons_of_mem p (ih h).1, (ih h).2⟩
    · rw [regRemove, if_neg hp] at h
      rcases List.mem_cons.mp h with rfl | h'
      · exact ⟨List.mem_cons_self q rest, hp⟩
      · exact ⟨List.mem_cons_of_mem p (ih h').1, (ih h').2⟩

theorem mem_regInsert {reg : Registry} {k : String} {v : SourceFile}
    {q : String × SourceFile} (h : q ∈ regInsert reg k v) :
    q = (k, v) ∨ q ∈ reg := by
  rcases List.mem_cons.mp h with h' | h'
  · exact Or.inl h'
  · exact Or.inr (mem_regRemove h').1

theorem regRemove_keys_sublist (reg : Registry) (k : String) :
    ((regRemove reg k).map Prod.fst).Sublist (reg.map Prod.fst) := by
  induction reg with
  | nil => exact List.Sublist.refl _
  | cons p rest ih =>
    by_cases hp : p.1 = k
    · rw [regRemove, if_pos hp]
      exact ih.trans (List.sublist_cons_self p.1 _)
    · rw [regRemove, if_neg hp, List.map_cons, List.map_cons]
      exact ih.cons₂ p.1

theorem regInsert_keys_nodup {reg : Registry} (h : (reg.map Prod.fst).Nodup)
    (k : String) (v : SourceFile) :
    ((regInsert reg k v).map Prod.fst).Nodup := by
  rw [regInsert, List.map_cons, List.nodup_cons]
  refine ⟨?_, (regRemove_keys_sublist reg k).nodup h⟩
  intro hk
  obtain ⟨q, hq, hqk⟩ := List.mem_map.mp hk
  exact (mem_regRemove hq).2 hqk

theorem regLookup_mem {reg : Registry} {k : String} {v : SourceFile}
    (h : regLookup reg k = some v) : (k, v) ∈ reg := by
  induction reg with
  | nil => exact Option.noConfusion h
  | cons p rest ih =>
    by_cases hp : p.1 = k
    · rw [regLookup, if_pos hp] at h
      obtain rfl := Option.some.inj h
      obtain ⟨pk, pv⟩ := p
      obtain rfl : pk = k := hp
      exact List.mem_cons_self _ _
    · rw [regLookup, if_neg hp] at h
      exact List.mem_cons_of_mem p (ih h)

theorem source_type_of_ne_mlmap (f : String) (st : SourceType)
    (h : source_type_of f = some st) : st ≠ SourceType.MlMap := by
  unfold source_type_of at h
  split at h
  any_goals exact Option.noConfusion h
  all_goals
    cases Option.some.inj h
    decide

theorem discoverSourceFiles_inv (resolve : String → String) (package : Package)
    (P : Registry → Prop) :
    ∀ (files : List String) (reg reg' : Registry),
      (∀ reg₁ file st, file ∈ files → source_type_of file = some st → P reg₁ →
        P (regInsert reg₁ (resolve file) (sourceUnit package file st))) →
      P reg → discoverSourceFiles resolve package reg files = .ok reg' → P reg'
  | [], reg, reg', _, hP, heq => by
    simp only [discoverSourceFiles] at heq
    cases heq
    exact hP
  | file :: rest, reg, reg', hstep, hP, heq => by
    cases hst : source_type_of file with
    | none =>
      simp only [discoverSourceFiles, hst] at heq
      exact Except.noConfusion heq
    | some st =>
      simp only [discoverSourceFiles, hst] at heq
      exact discoverSourceFiles_inv resolve package P rest _ reg'
        (fun r f s hf hs hp => hstep r f s (List.mem_cons_of_mem _ hf) hs hp)
        (hstep reg file st (List.mem_cons_self _ _) hst hP) heq

theorem discoverPackage_inv (resolve : String → String) (root : String)
    (package : Package) (P : Registry → Prop)
    (hns : ∀ reg ns, get_namespace package = some ns → P reg →
      P (regInsert reg (resolve (gen_mlmap_path package ns root))
        (aliasUnit package (gen_mlmap_path package ns root)
          (aliasDeps resolve package))))
    (hsrc : ∀ reg file st, file ∈ package.source_files.getD [] →
      source_type_of file = some st → P reg →
      P (regInsert reg (resolve file) (sourceUnit package file st))) :
    ∀ reg reg', P reg → discoverPackage resolve root reg package = .ok reg' →
      P reg' := by
  intro reg reg' hP h
  unfold discoverPackage at h
  cases hnsv : get_namespace package with
  | none =>
    simp only [hnsv] at h
    cases hsf : package.source_files with
    | none =>
      simp only [hsf] at h
      cases h
      exact hP
    | some files =>
      simp only [hsf] at h
      exact discoverSourceFiles_inv resolve package P files reg reg'
        (fun r f s hf hs hp => hsrc r f s (by simp [hsf, hf]) hs hp) hP h
  | some ns =>
    simp only [hnsv] at h
    have hP1 := hns reg ns hnsv hP
    cases hsf : package.source_files with
    | none =>
      simp only [hsf] at h
      cases h
      exact hP1
    | some files =>
      simp only [hsf] at h
      exact discoverSourceFiles_inv resolve package P files _ reg'
        (fun r f s hf hs hp => hsrc r f s (by simp [hsf, hf]) hs hp) hP1 h

theorem discoverAux_inv (resolve : String → String) (root : String)
    (P : Registry → Prop)
    (hstep : ∀ reg p reg', P reg →
      discoverPackage resolve root reg p = .ok reg' → P reg') :
    ∀ (packages : List Package) (reg reg' : Registry), P reg →
      discoverAux resolve root reg packages = .ok reg' → P reg'
  | [], reg, reg', hP, heq => by
    simp only [discoverAux] at heq
    cases heq
    exact hP
  | q :: rest, reg, reg', hP, heq => by
    cases hq : discoverPackage resolve root reg q with
    | error e =>
      simp only [discoverAux, hq] at heq
      exact Except.noConfusion heq
    | ok reg₁ =>
      simp only [discoverAux, hq] at heq
      exact discoverAux_inv resolve root P hstep rest reg₁ reg'
        (hstep reg q reg₁ hP hq) heq

theorem get_namespace_flag (p : Package) (ns : String)
    (h : get_namespace p = some ns) : p.namespace_flag = true := by
  by_cases hf : p.namespace_flag = true
  · exact hf
  · rw [get_namespace, if_neg hf] at h
    exact Option.noConfusion h

/-- After discovering a namespaced package into an empty registry, the alias
unit is present under its resolved key, and it is the only `MlMap` entry
(provided no source file resolves to the alias key). -/
theorem discoverPackage_alias_lookup (resolve : String → String) (root : String)
    (p : Package) (ns : String) (hns : get_namespace p = some ns)
    (reg' : Registry) (hdisc : discoverPackage resolve root [] p = .ok reg')
    (hinj : ∀ f ∈ p.source_files.getD [],
      resolve f ≠ resolve (gen_mlmap_path p ns root)) :
    regLookup reg' (resolve (gen_mlmap_path p ns root)) =
      some (aliasUnit p (gen_mlmap_path p ns root) (aliasDeps resolve p)) ∧
    ∀ q ∈ reg', q.2.source_type = SourceType.MlMap →
      q = (resolve (gen_mlmap_path p ns root),
        aliasUnit p (gen_mlmap_path p ns root) (aliasDeps resolve p)) := by
  have base :
      regLookup
          (regInsert [] (resolve (gen_mlmap_path p ns root))
            (aliasUnit p (gen_mlmap_path p ns root) (aliasDeps resolve p)))
          (resolve (gen_mlmap_path p ns root)) =
        some (aliasUnit p (gen_mlmap_path p ns root) (aliasDeps resolve p)) ∧
      ∀ q ∈ regInsert [] (resolve (gen_mlmap_path p ns root))
          (aliasUnit p (gen_mlmap_path p ns root) (aliasDeps resolve p)),
        q.2.source_type = SourceType.MlMap →
        q = (resolve (gen_mlmap_path p ns root),
          aliasUnit p (gen_mlmap_path p ns root) (aliasDeps resolve p)) := by
    refine ⟨regLookup_regInsert_self _ _ _, ?_⟩
    intro q hq _
    rcases mem_regInsert hq with h' | h'
    · exact h'
    · exact absurd h' (List.not_mem_nil q)
  unfold discoverPackage at hdisc
  simp only [hns] at hdisc
  cases hsf : p.source_files with
  | none =>
    simp only [hsf] at hdisc
    cases hdisc
    exact base
  | some files =>
    simp only [hsf] at hdisc
    refine discoverSourceFiles_inv resolve p
      (fun r =>
        regLookup r (resolve (gen_mlmap_path p ns root)) =
          some (aliasUnit p (gen_mlmap_path p ns root) (aliasDeps resolve p)) ∧
        ∀ q ∈ r, q.2.source_type = SourceType.MlMap →
          q = (resolve (gen_mlmap_path p ns root),
            aliasUnit p (gen_mlmap_path p ns root) (aliasDeps resolve p)))
      files _ reg' ?_ base hdisc
    intro r f st hf hs hP
    have hkey : resolve (gen_mlmap_path p ns root) ≠ resolve f :=
      Ne.symm (hinj f (by simp [hsf, hf]))
    refine ⟨?_, ?_⟩
    · rw [regLookup_regInsert_ne r _ _ _ hkey]
      exact hP.1
    · intro q hq hqty
      rcases mem_regInsert hq with rfl | hq'
      · exact absurd hqty (by simpa [sourceUnit] using source_type_of_ne_mlmap f st hs)
      · exact hP.2 q hq' hqty

/-- After discovering a namespaced package into an empty registry, every
non-`MlMap` entry is tagged with the package's derived namespace
identifier. -/
theorem discoverPackage_namespace_tag (resolve : String → String) (root : String)
    (p : Package) (reg' : Registry) (hflag : p.namespace_flag = true)
    (hdisc : discoverPackage resolve root [] p = .ok reg') :
    ∀ q ∈ reg', q.2.source_type ≠ SourceType.MlMap →
      q.2.namespace' = get_namespace p := by
  refine discoverPackage_inv resolve root p
    (fun r => ∀ q ∈ r, q.2.source_type ≠ SourceType.MlMap →
      q.2.namespace' = get_namespace p)
    ?_ ?_ [] reg' (by simp) hdisc
  · intro r ns _ hP q hq hqty
    rcases mem_regInsert hq with rfl | hq'
    · exact absurd rfl hqty
    · exact hP q hq' hqty
  · intro r f st _ _ hP q hq hqty
    rcases mem_regInsert hq with rfl | hq'
    · simp [sourceUnit, hflag]
    · exact hP q hq' hqty

/-- A project in which two source files resolve to the same module name
(`A.res` and `dup/A.res` both resolve to module `A` under a basename
resolver). -/
def pkgDup : Package :=
  { name := "foo", namespace_flag := false,
    bsconfig := { name := "foo", bs_dependencies := none, reason := none },
    source_files := some ["A.res", "dup/A.res"] }

/-- C7 fails on the code: a module-name collision is not a fatal
configuration error — discovery completes successfully, and the earlier
colliding unit (`A.res`) has been silently replaced by the later one
(`dup/A.res`), so a unit was dropped without any error. -/
theorem C7_counterexample :
    discover get_basename "/root" [pkgDup] =
      .ok [("A", sourceUnit pkgDup "dup/A.res" SourceType.Implementation)] ∧
    "A.res" ∈ pkgDup.source_files.getD [] ∧
    (sourceUnit pkgDup "dup/A.res" SourceType.Implementation).file_path ≠ "A.res" :=
  ⟨by rfl, by decide, by decide⟩

/-- C7 (amended): module-name collisions are not detected — the later
registration silently replaces the earlier one — yet every registry produced
by discovery does hold exactly one unit per module name (its key list is
duplicate-free), and after an insert the key maps to the newly inserted
unit. -/
theorem C7_registry_one_per_name (resolve : String → String) (root : String)
    (packages : List Package) (reg : Registry)
    (h : discover resolve root packages = .ok reg) :
    ((reg.map Prod.fst).Nodup) ∧
    (∀ (reg₀ : Registry) (k : String) (v : SourceFile),
      regLookup (regInsert reg₀ k v) k = some v) := by
  constructor
  · refine discoverAux_inv resolve root (fun r => (r.map Prod.fst).Nodup)
      ?_ packages [] reg (by simp) h
    intro r p r' hP hdp
    refine discoverPackage_inv resolve root p
      (fun r => (r.map Prod.fst).Nodup) ?_ ?_ r r' hP hdp
    · intro r₁ ns _ hp
      exact regInsert_keys_nodup hp _ _
    · intro r₁ f st _ _ hp
      exact regInsert_keys_nodup hp _ _
  · exact fun reg₀ k v => regLookup_regInsert_self reg₀ k v

/-- Witness for the amended C7: the concrete colliding project yields a
registry with duplicate-free keys. -/
theorem C7_witness :
    (([("A", sourceUnit pkgDup "dup/A.res" SourceType.Implementation)] :
        Registry).map Prod.fst).Nodup :=
  (C7_registry_one_per_name get_basename "/root" [pkgDup]
    [("A", sourceUnit pkgDup "dup/A.res" SourceType.Implementation)] (by rfl)).1

/-- C5: for a namespaced package declared as `@org/bar`, the derived
namespace identifier is `OrgBar` (scope marker and path separator removed,
Pascal capitalization), and every non-alias unit registered for the package
is tagged with that identifier. -/
theorem C5_namespace_derivation (p : Package) (resolve : String → String)
    (root : String) (reg' : Registry)
    (hflag : p.namespace_flag = true) (hname : p.bsconfig.name = "@org/bar")
    (hdisc : discoverPackage resolve root [] p = .ok reg') :
    get_namespace p = some "OrgBar" ∧
    ∀ q ∈ reg', q.2.source_type ≠ SourceType.MlMap →
      q.2.namespace' = some "OrgBar" := by
  have hgn : get_namespace p = some "OrgBar" := by
    rw [get_namespace, if_pos hflag, hname]
    decide
  refine ⟨hgn, fun q hq hqty => ?_⟩
  rw [discoverPackage_namespace_tag resolve root p reg' hflag hdisc q hq hqty, hgn]

/-- The concrete namespaced package `@org/bar` with one source file, used by
the witnesses of C5, C3 and C10. -/
def pkgOrg : Package :=
  { name := "@org/bar", namespace_flag := true,
    bsconfig := { name := "@org/bar", bs_dependencies := none, reason := none },
    source_files := some ["X.res"] }

/-- The registry produced by discovering `pkgOrg` under a basename
resolver. -/
def regOrg : Registry :=
  [("X", sourceUnit pkgOrg "X.res" SourceType.Implementation),
   ("OrgBar",
    aliasUnit pkgOrg "/root/node_modules/@org/bar/_build/OrgBar.mlmap"
      (aliasDeps get_basename pkgOrg))]

/-- Witness for C5: the `X.res` unit of the concrete `@org/bar` package is
tagged `OrgBar`. -/
theorem C5_witness :
    (sourceUnit pkgOrg "X.res" SourceType.Implementation).namespace' =
      some "OrgBar" :=
  (C5_namespace_derivation pkgOrg get_basename "/root" regOrg rfl rfl (by rfl)).2
    ("X", sourceUnit pkgOrg "X.res" SourceType.Implementation) (by simp [regOrg])
    (by decide)

/-- C3: for a namespaced package discovered into a fresh registry (with no
source file resolving to the alias key), exactly one `MlMap` unit is
registered: it sits under the resolved `.mlmap` key, its `ast_deps` equals —
as a set — the resolved module names of the package's source files, its
`artifact_path` is already set at registration, and extraction bypasses it,
returning exactly the stored path and dependency set. -/
theorem C3_alias_unit (resolve : String → String) (root : String) (p : Package)
    (ns : String) (hns : get_namespace p = some ns) (reg' : Registry)
    (hdisc : discoverPackage resolve root [] p = .ok reg')
    (hinj : ∀ f ∈ p.source_files.getD [],
      resolve f ≠ resolve (gen_mlmap_path p ns root)) :
    (aliasDeps resolve p = ((p.source_files.getD []).map resolve).toFinset) ∧
    regLookup reg' (resolve (gen_mlmap_path p ns root)) =
      some (aliasUnit p (gen_mlmap_path p ns root) (aliasDeps resolve p)) ∧
    (∀ q ∈ reg', q.2.source_type = SourceType.MlMap →
      q = (resolve (gen_mlmap_path p ns root),
        aliasUnit p (gen_mlmap_path p ns root) (aliasDeps resolve p))) ∧
    ((aliasUnit p (gen_mlmap_path p ns root) (aliasDeps resolve p)).ast_path =
      some (gen_mlmap_path p ns root)) ∧
    (∀ fs version stderr,
      extractUnit fs root version stderr (resolve (gen_mlmap_path p ns root))
        (aliasUnit p (gen_mlmap_path p ns root) (aliasDeps resolve p)) =
      some (resolve (gen_mlmap_path p ns root), gen_mlmap_path p ns root,
        aliasDeps resolve p)) := by
  obtain ⟨hlook, huniq⟩ :=
    discoverPackage_alias_lookup resolve root p ns hns reg' hdisc hinj
  refine ⟨?_, hlook, huniq, rfl, fun fs version stderr => rfl⟩
  cases hsf : p.source_files with
  | none => simp [aliasDeps, hsf]
  | some files => simp [aliasDeps, hsf]

/-- Witness for C3: the alias unit of the concrete `@org/bar` package is
found under key `OrgBar` in the discovered registry. -/
theorem C3_witness :
    regLookup regOrg (get_basename (gen_mlmap_path pkgOrg "OrgBar" "/root")) =
      some (aliasUnit pkgOrg (gen_mlmap_path pkgOrg "OrgBar" "/root")
        (aliasDeps get_basename pkgOrg)) :=
  (C3_alias_unit get_basename "/root" pkgOrg "OrgBar" (by decide) regOrg
    (by rfl) (by decide)).2.1

/-- C10: the `MlMap` unit of a namespaced package is stored with
`namespace = None`; its `file_path`, `ast_path` and registry key all derive
from the same `<build-dir>/<namespace>.mlmap` path (with `file_path` equal to
the `ast_path` contents); and only non-`MlMap` (Interface/Implementation)
units carry the derived namespace identifier. -/
theorem C10_mlmap_unit_fields (resolve : String → String) (root : String)
    (p : Package) (ns : String) (hns : get_namespace p = some ns)
    (reg' : Registry) (hdisc : discoverPackage resolve root [] p = .ok reg')
    (hinj : ∀ f ∈ p.source_files.getD [],
      resolve f ≠ resolve (gen_mlmap_path p ns root)) :
    (gen_mlmap_path p ns root =
      get_build_path root p.name ++ "/" ++ ns ++ ".mlmap") ∧
    regLookup reg' (resolve (gen_mlmap_path p ns root)) =
      some (aliasUnit p (gen_mlmap_path p ns root) (aliasDeps resolve p)) ∧
    ((aliasUnit p (gen_mlmap_path p ns root) (aliasDeps resolve p)).namespace' =
      none) ∧
    ((aliasUnit p (gen_mlmap_path p ns root) (aliasDeps resolve p)).file_path =
      gen_mlmap_path p ns root) ∧
    ((aliasUnit p (gen_mlmap_path p ns root) (aliasDeps resolve p)).ast_path =
      some (gen_mlmap_path p ns root)) ∧
    (∀ q ∈ reg', q.2.source_type = SourceType.MlMap → q.2.namespace' = none) ∧
    (∀ q ∈ reg', q.2.source_type ≠ SourceType.MlMap →
      q.2.namespace' = get_namespace p) := by
  obtain ⟨hlook, huniq⟩ :=
    discoverPackage_alias_lookup resolve root p ns hns reg' hdisc hinj
  refine ⟨rfl, hlook, rfl, rfl, rfl, ?_, ?_⟩
  · intro q hq hqty
    rw [huniq q hq hqty]
    rfl
  · exact discoverPackage_namespace_tag resolve root p reg'
      (get_namespace_flag p ns hns) hdisc

/-- Witness for C10: the concrete alias unit of `@org/bar` has no namespace
of its own although every source unit of the package is tagged. -/
theorem C10_witness :
    ("OrgBar",
      aliasUnit pkgOrg "/root/node_modules/@org/bar/_build/OrgBar.mlmap"
        (aliasDeps get_basename pkgOrg)).2.namespace' = none :=
  (C10_mlmap_unit_fields get_basename "/root" pkgOrg "OrgBar" (by decide)
    regOrg (by rfl) (by decide)).2.2.2.2.2.1
    ("OrgBar",
      aliasUnit pkgOrg "/root/node_modules/@org/bar/_build/OrgBar.mlmap"
        (aliasDeps get_basename pkgOrg)) (by simp [regOrg]) (by decide)

/-- C4: the module-compile argument vector is, in this exact order: the
namespace flag pair when the unit's namespace is set, `-bs-read-cmi` only for
interfaces, the current-directory include, one `-I` pair per declared package
dependency, the warnings-as-errors flag, then — for implementations only —
the package name and the ES-module `-bs-package-output` flag (`.mjs`
extension, relative directory = parent of the source path with the package
root stripped), with the unit's artifact path appended last; the invocation
panics (`none`) when `ast_path` is unset. -/
theorem C4_compile_args (pkg_path_abs abs_node_modules_path : String)
    (source : SourceFile) (is_interface : Bool) :
    (source.ast_path = none →
      compile_file_args pkg_path_abs abs_node_modules_path source is_interface =
        none)
    ∧ (∀ ast, source.ast_path = some ast → is_interface = true →
        compile_file_args pkg_path_abs abs_node_modules_path source is_interface =
          some ((match source.namespace' with
                 | some ns => ["-bs-ns", ns]
                 | none => []) ++
            ["-bs-read-cmi"] ++ ["-I", "."] ++
            ((source.package.bsconfig.bs_dependencies.getD []).map
              (fun x => ["-I", abs_node_modules_path ++ "/" ++ x ++ "/_build"])).flatten ++
            ["-warn-error", "A"] ++ [ast]))
    ∧ (∀ ast dir, source.ast_path = some ast → is_interface = false →
        (stripPrefix source.file_path pkg_path_abs).bind parent = some dir →
        compile_file_args pkg_path_abs abs_node_modules_path source is_interface =
          some ((match source.namespace' with
                 | some ns => ["-bs-ns", ns]
                 | none => []) ++
            ["-I", "."] ++
            ((source.package.bsconfig.bs_dependencies.getD []).map
              (fun x => ["-I", abs_node_modules_path ++ "/" ++ x ++ "/_build"])).flatten ++
            ["-warn-error", "A"] ++
            ["-bs-package-name", source.package.bsconfig.name,
             "-bs-package-output", "es6:" ++ ("./" ++ dir) ++ ":.mjs"] ++ [ast])) := by
  refine ⟨fun hnone => ?_, fun ast hast hint => ?_, fun ast dir hast himpl hdir => ?_⟩
  · cases is_interface with
    | true => simp [compile_file_args, hnone]
    | false =>
      cases hs : stripPrefix source.file_path pkg_path_abs with
      | none => simp [compile_file_args, hnone, hs]
      | some stripped =>
        cases hp : parent stripped with
        | none => simp [compile_file_args, hnone, hs, hp]
        | some dir => simp [compile_file_args, hnone, hs, hp]
  · subst hint
    simp [compile_file_args, hast]
  · subst himpl
    cases hs : stripPrefix source.file_path pkg_path_abs with
    | none =>
      rw [hs] at hdir
      exact absurd hdir (by simp)
    | some stripped =>
      rw [hs] at hdir
      simp only [Option.some_bind] at hdir
      simp [compile_file_args, hast, hs, hdir]

/-- An Implementation unit with two declared package dependencies, for the C4
witness (Scenario D of the spec). -/
def srcImpl : SourceFile :=
  { dirty := true
    source_type := SourceType.Implementation
    namespace' := some "OrgBar"
    file_path := "/pkg/src/A.res"
    ast_path := some "A.ast"
    ast_deps := ∅
    package :=
      { name := "bar"
        namespace_flag := true
        bsconfig :=
          { name := "bar"
            bs_dependencies := some ["dep1", "dep2"]
            reason := none }
        source_files := some ["/pkg/src/A.res"] } }

/-- Witness for C4: the concrete two-dependency implementation compile
produces exactly two dependency `-I` pairs besides the current-directory
include, in the stated order, ending with the artifact path. -/
theorem C4_witness :
    compile_file_args "/pkg" "/nm" srcImpl false =
      some ["-bs-ns", "OrgBar", "-I", ".", "-I", "/nm/dep1/_build", "-I",
        "/nm/dep2/_build", "-warn-error", "A", "-bs-package-name", "bar",
        "-bs-package-output", "es6:./src:.mjs", "A.ast"] :=
  ((C4_compile_args "/pkg" "/nm" srcImpl false).2.2 "A.ast" "src" rfl rfl
    (by decide)).trans (by decide)

/-! ### Lemmas about the scatter/gather pipeline -/

theorem gather_cons (reg : Registry) (t : String × String × Finset String)
    (ts : List (String × String × Finset String)) :
    gather reg (t :: ts) =
      gather (reg.map fun p =>
        if p.1 = t.1 then
          (p.1, { p.2 with ast_path := some t.2.1, ast_deps := t.2.2 })
        else p) ts := rfl

theorem gather_ast_path_set :
    ∀ (triples : List (String × String × Finset String)) (reg : Registry),
      (∀ q ∈ reg, q.2.ast_path ≠ none ∨ ∃ t ∈ triples, t.1 = q.1) →
      ∀ q ∈ gather reg triples, q.2.ast_path ≠ none
  | [], reg, h, q, hq => by
    rcases h q hq with h' | ⟨t, ht, _⟩
    · exact h'
    · exact absurd ht (List.not_mem_nil t)
  | t :: ts, reg, h, q, hq => by
    rw [gather_cons] at hq
    refine gather_ast_path_set ts _ ?_ q hq
    intro q₀ hq₀
    obtain ⟨q₁, hq₁, rfl⟩ := List.mem_map.mp hq₀
    by_cases hk : q₁.1 = t.1
    · left
      simp [hk]
    · rcases h q₁ hq₁ with h' | ⟨t', ht', he⟩
      · left
        simpa [hk] using h'
      · rcases List.mem_cons.mp ht' with rfl | ht''
        · exact absurd he.symm hk
        · right
          exact ⟨t', ht'', by simpa [hk] using he⟩

theorem extractUnit_fst (fs : String → Option (List String))
    (root version stderr module_name : String) (m : SourceFile)
    (t : String × String × Finset String)
    (h : extractUnit fs root version stderr module_name m = some t) :
    t.1 = module_name := by
  by_cases hty : m.source_type = SourceType.MlMap
  · simp only [extractUnit, hty] at h
    cases hap : m.ast_path with
    | none =>
      rw [hap] at h
      exact Option.noConfusion h
    | some pth =>
      rw [hap] at h
      cases Option.some.inj h
      rfl
  · cases hout : generate_ast_output m.file_path with
    | none =>
      rw [extractUnit_none fs root version stderr module_name m hty hout] at h
      exact Option.noConfusion h
    | some out =>
      rw [extractUnit_eq fs root version stderr module_name m hty out hout] at h
      cases Option.some.inj h
      rfl

theorem extractAll_keys (fs : String → Option (List String))
    (root version : String) (stderrOf : String → String) :
    ∀ (reg : Registry) (ts : List (String × String × Finset String)),
      extractAll fs root version stderrOf reg = .ok ts →
      ∀ q ∈ reg, ∃ t ∈ ts, t.1 = q.1
  | [], _, _, q, hq => absurd hq (List.not_mem_nil q)
  | p :: rest, ts, h, q, hq => by
    cases hx : extractUnit fs root version (stderrOf p.2.file_path) p.1 p.2 with
    | none =>
      simp only [extractAll, hx] at h
      exact Except.noConfusion h
    | some t =>
      simp only [extractAll, hx] at h
      cases hrest : extractAll fs root version stderrOf rest with
      | error e =>
        rw [hrest] at h
        exact Except.noConfusion h
      | ok ts' =>
        rw [hrest] at h
        cases h
        rcases List.mem_cons.mp hq with rfl | hq'
        · exact ⟨t, List.mem_cons_self _ _,
            extractUnit_fst fs root version (stderrOf q.2.file_path) q.1 q.2 t hx⟩
        · obtain ⟨t', ht', he⟩ :=
            extractAll_keys fs root version stderrOf rest ts' hrest q hq'
          exact ⟨t', List.mem_cons_of_mem _ ht', he⟩

theorem extractUnit_stderr_irrelevant (fs : String → Option (List String))
    (root version s s' k : String) (m : SourceFile) :
    extractUnit fs root version s k m = extractUnit fs root version s' k m := by
  by_cases hty : m.source_type = SourceType.MlMap
  · simp only [extractUnit, hty]
  · cases hout : generate_ast_output m.file_path with
    | none =>
      rw [extractUnit_none fs root version s k m hty hout,
        extractUnit_none fs root version s' k m hty hout]
    | some out =>
      rw [extractUnit_eq fs root version s k m hty out hout,
        extractUnit_eq fs root version s' k m hty out hout]

theorem parse_ok_ast_path_set (resolve : String → String)
    (fs : String → Option (List String)) (stderrOf : String → String)
    (version root : String) (packages : List Package) (reg : Registry)
    (h : parse_and_get_dependencies resolve fs stderrOf version root packages =
      .ok reg) :
    ∀ q ∈ reg, q.2.ast_path ≠ none := by
  intro q hq
  unfold parse_and_get_dependencies at h
  cases hd : discover resolve root packages with
  | error e =>
    rw [hd] at h
    exact absurd h (by simp [Bind.bind, Except.bind])
  | ok files =>
    rw [hd] at h
    simp only [Bind.bind, Except.bind] at h
    cases he : extractAll fs root version stderrOf files with
    | error e =>
      rw [he] at h
      exact absurd h (by simp)
    | ok triples =>
      rw [he] at h
      simp only [pure, Except.pure] at h
      obtain rfl := (Except.ok.inj h).symm
      refine gather_ast_path_set triples files ?_ q hq
      intro q₀ hq₀
      exact Or.inr (extractAll_keys fs root version stderrOf files triples he q₀ hq₀)

/-- A one-file package whose front-end invocation fails (diagnostics on
stderr, no artifact written), for the C8 scenarios. -/
def pkgC8 : Package :=
  { name := "foo", namespace_flag := false,
    bsconfig := { name := "foo", bs_dependencies := none, reason := none },
    source_files := some ["A.res"] }

/-- The `A` unit as it stands after the pipeline ran over `pkgC8` with a
failed front-end invocation: `ast_path` is set to the computed artifact name
even though no artifact exists, and the dependency set degenerates to the
prelude alone. -/
def unitC8 : SourceFile :=
  { dirty := true
    source_type := SourceType.Implementation
    namespace' := none
    file_path := "A.res"
    ast_path := some "A.ast"
    ast_deps := {"Pervasives"}
    package := pkgC8 }

/-- C8 fails on the code in its last part: after a failed front-end
invocation (stderr diagnostics reported, artifact unreadable) the scatter
phase indeed continues and completes, but the unit's `artifact_path` does
not remain unset — the gather phase stores the computed artifact name
unconditionally. -/
theorem C8_counterexample :
    parse_and_get_dependencies get_basename (fun _ => none)
      (fun _ => "Syntax error!") "v" "/root" [pkgC8] = .ok [("A", unitC8)] ∧
    generate_ast pkgC8 "A.res" "/root" "v" "Syntax error!" =
      some ("A.ast", true) ∧
    unitC8.ast_path ≠ none :=
  ⟨by rfl, by decide, by decide⟩

/-- C8 (amended): a front-end compile failure is reported as text (its stderr
is printed whenever it holds alphanumeric content) and never halts the
scatter phase — the extraction result does not depend on the diagnostics at
all — but the failure does not leave `artifact_path` unset: after a
successful pipeline run every registry entry has `ast_path` set, and a
missing artifact surfaces only through the degenerate dependency set and a
later compile failure. -/
theorem C8_frontend_failure_nonhalting :
    (∀ (package : Package) (file root version stderr out : String),
      generate_ast_output file = some out →
      generate_ast package file root version stderr =
        some (out, contains_ascii_characters stderr))
    ∧ (∀ (fs : String → Option (List String)) (root version s s' k : String)
        (m : SourceFile),
        extractUnit fs root version s k m = extractUnit fs root version s' k m)
    ∧ (∀ (resolve : String → String) (fs : String → Option (List String))
        (stderrOf : String → String) (version root : String)
        (packages : List Package) (reg : Registry),
        parse_and_get_dependencies resolve fs stderrOf version root packages =
          .ok reg →
        ∀ q ∈ reg, q.2.ast_path ≠ none) := by
  refine ⟨fun package file root version stderr out hout => ?_,
    extractUnit_stderr_irrelevant, parse_ok_ast_path_set⟩
  simp [generate_ast, hout]

/-- Witness for the amended C8 at the concrete failed-front-end scenario. -/
theorem C8_witness : unitC8.ast_path ≠ none :=
  C8_frontend_failure_nonhalting.2.2 get_basename (fun _ => none)
    (fun _ => "Syntax error!") "v" "/root" [pkgC8] [("A", unitC8)] (by rfl)
    ("A", unitC8) (by simp)
